import Mathlib

/-!
# ambulance-hr-webapi: HR and user-management handlers

A shallow embedding of the gin handlers of package `ambulance_hr`
(`impl_api_hr_management.go`, `impl_api_user_management.go`) and theorems about them.

* A handler is a function from a request context (and the request inputs) to the
  context after the handler has run.  The context carries the value stored under the
  key `db_service`, the state of the document store, the sequence of store calls made
  so far and the sequence of responses written with `ctx.JSON` so far.
* `db_service.DbService[UserDto]` is an interface whose implementation is not part of
  the handler sources; it is a parameter of the embedding (`DbService σ`).
  `memDb` is an in-memory instance that follows the store contract.
* `uuid.New().String()` is an input of the handler (`newId`), `ctx.Param("userId")`
  is an input (`userId`) and the result of `ctx.BindJSON` is an input (`body`).
-/

namespace AmbulanceHr

/-! ## Data model -/

/-- Errors as the handlers see them: the two sentinel values of package `db_service`
that the handlers compare against, and any other error with its message. -/
inductive GoError where
  | ErrNotFound
  | ErrConflict
  | other (msg : String)
  deriving DecidableEq, Repr

/-- Struct `PersonalDocument` of `model_personal_document.go`. -/
structure PersonalDocument where
  Id : String
  Name : String
  Content : String
  deriving DecidableEq, Repr

/-- Modelled from the spec: the declaration of `PersonalDocumentEntry` is not in the
sources; the fields are the ones `AddPersonalDocument` reads. -/
structure PersonalDocumentEntry where
  Name : String
  Content : String
  deriving DecidableEq, Repr

/-- Modelled from the spec: the declaration of `UserDto` is not in the sources; the
fields are the ones `CreateUser` assigns (the persisted layout of the user record). -/
structure UserDto where
  Id : String
  Name : String
  Role : String
  Phone : String
  Email : String
  Department : String
  PersonalDocument : List PersonalDocument
  deriving DecidableEq, Repr

/-- Modelled from the spec: the declaration of `UserEntry` is not in the sources; the
fields are the ones `CreateUser` reads. -/
structure UserEntry where
  Name : String
  Role : String
  Phone : String
  Email : String
  Department : String
  deriving DecidableEq, Repr

/-- Modelled from the spec: the declaration of `UserList` is not in the sources; the
fields are the ones `getUserListWithDbContext` assigns (the list projection). -/
structure UserList where
  Id : String
  Name : String
  Role : String
  Department : String
  deriving DecidableEq, Repr

/-- Modelled from the spec: the declaration of `DepartmentDto` is not in the sources;
the field is the one `UpdateUserDepartment` reads. -/
structure DepartmentDto where
  Department : String
  deriving DecidableEq, Repr

/-- Modelled from the spec: the declaration of `LoginEntry` is not in the sources;
the field is the one `LoginUser` reads. -/
structure LoginEntry where
  Email : String
  deriving DecidableEq, Repr

/-! ## Responses -/

namespace http

/-- Constant `http.StatusOK`. -/
def StatusOK : Nat := 200
/-- Constant `http.StatusCreated`. -/
def StatusCreated : Nat := 201
/-- Constant `http.StatusNoContent`. -/
def StatusNoContent : Nat := 204
/-- Constant `http.StatusBadRequest`. -/
def StatusBadRequest : Nat := 400
/-- Constant `http.StatusNotFound`. -/
def StatusNotFound : Nat := 404
/-- Constant `http.StatusConflict`. -/
def StatusConflict : Nat := 409
/-- Constant `http.StatusInternalServerError`. -/
def StatusInternalServerError : Nat := 500
/-- Constant `http.StatusBadGateway`. -/
def StatusBadGateway : Nat := 502

end http

/-- A value of a `gin.H` map in the handlers: a string literal, or `err.Error()` for
an error value `err`. -/
inductive HValue where
  | str (s : String)
  | errorOf (err : GoError)
  deriving DecidableEq, Repr

/-- The object handed to `ctx.JSON`. -/
inductive Body where
  | H (fields : List (String × HValue))
  | user (u : UserDto)
  | userList (l : List UserList)
  | document (d : PersonalDocument)
  deriving DecidableEq, Repr

/-- One call of `ctx.JSON(code, obj)`. -/
structure Response where
  code : Nat
  obj : Body
  deriving DecidableEq, Repr

/-! ## The store interface and the request context -/

/-- A call of a method of `db_service.DbService[UserDto]`. -/
inductive DbCall where
  | CreateDocument (id : String) (document : UserDto)
  | FindDocument (id : String)
  | FindDocumentByEmail (email : String)
  | GetAllDocuments
  | UpdateDocument (id : String) (document : UserDto)
  | DeleteDocument (id : String)
  deriving DecidableEq, Repr

/-- Interface `db_service.DbService[UserDto]` as the handlers use it, over a store
state `σ`: each method takes the state and returns its result and the next state.
A method that returns only `error` returns `none` for `nil`. -/
structure DbService (σ : Type) where
  CreateDocument : σ → String → UserDto → Option GoError × σ
  FindDocument : σ → String → Except GoError UserDto × σ
  FindDocumentByEmail : σ → String → Except GoError UserDto × σ
  GetAllDocuments : σ → Except GoError (List UserDto) × σ
  UpdateDocument : σ → String → UserDto → Option GoError × σ
  DeleteDocument : σ → String → Option GoError × σ

/-- What `ctx.Get("db_service")` followed by the type assertion
`value.(db_service.DbService[UserDto])` can find. -/
inductive CtxValue (σ : Type) where
  | absent
  | wrongType
  | service (db : DbService σ)

/-- The part of `*gin.Context` the handlers touch, together with the store state. -/
structure Context (σ : Type) where
  db_service : CtxValue σ
  store : σ
  calls : List DbCall
  written : List Response

variable {σ : Type}

/-- Method `ctx.JSON(code, obj)`: one more response written. -/
def Context.JSON (ctx : Context σ) (code : Nat) (obj : Body) : Context σ :=
  { ctx with written := ctx.written ++ [⟨code, obj⟩] }

/-- Call `db.CreateDocument(ctx, id, &document)`. -/
def callCreateDocument (ctx : Context σ) (db : DbService σ) (id : String)
    (document : UserDto) : Context σ × Option GoError :=
  let r := db.CreateDocument ctx.store id document
  ({ ctx with store := r.2, calls := ctx.calls ++ [.CreateDocument id document] }, r.1)

/-- Call `db.FindDocument(ctx, id)`. -/
def callFindDocument (ctx : Context σ) (db : DbService σ) (id : String) :
    Context σ × Except GoError UserDto :=
  let r := db.FindDocument ctx.store id
  ({ ctx with store := r.2, calls := ctx.calls ++ [.FindDocument id] }, r.1)

/-- Call `db.FindDocumentByEmail(ctx, email)`. -/
def callFindDocumentByEmail (ctx : Context σ) (db : DbService σ) (email : String) :
    Context σ × Except GoError UserDto :=
  let r := db.FindDocumentByEmail ctx.store email
  ({ ctx with store := r.2, calls := ctx.calls ++ [.FindDocumentByEmail email] }, r.1)

/-- Call `db.GetAllDocuments(ctx)`. -/
def callGetAllDocuments (ctx : Context σ) (db : DbService σ) :
    Context σ × Except GoError (List UserDto) :=
  let r := db.GetAllDocuments ctx.store
  ({ ctx with store := r.2, calls := ctx.calls ++ [.GetAllDocuments] }, r.1)

/-- Call `db.UpdateDocument(ctx, id, document)`. -/
def callUpdateDocument (ctx : Context σ) (db : DbService σ) (id : String)
    (document : UserDto) : Context σ × Option GoError :=
  let r := db.UpdateDocument ctx.store id document
  ({ ctx with store := r.2, calls := ctx.calls ++ [.UpdateDocument id document] }, r.1)

/-- Call `db.DeleteDocument(ctx, id)`. -/
def callDeleteDocument (ctx : Context σ) (db : DbService σ) (id : String) :
    Context σ × Option GoError :=
  let r := db.DeleteDocument ctx.store id
  ({ ctx with store := r.2, calls := ctx.calls ++ [.DeleteDocument id] }, r.1)

/-! ## Helpers of `impl_api_hr_management.go` -/

/-- Function `getDbServiceFromContext`: the handle and `true`, or a 500 response and
`false` when the key is absent or the value has another type. -/
def getDbServiceFromContext (ctx : Context σ) : Context σ × Option (DbService σ) :=
  match ctx.db_service with
  | .absent =>
    (ctx.JSON http.StatusInternalServerError
      (.H [("status", .str "Internal Server Error"),
           ("message", .str "db not found"),
           ("error", .str "db not found")]), none)
  | .wrongType =>
    (ctx.JSON http.StatusInternalServerError
      (.H [("status", .str "Internal Server Error"),
           ("message", .str "db context is not of required type"),
           ("error", .str "cannot cast db context to db_service.DbService")]), none)
  | .service db => (ctx, some db)

/-- Function `userWithEmailExists`. -/
def userWithEmailExists (ctx : Context σ) (db : DbService σ) (email : String) :
    Context σ × Except GoError Bool :=
  match callFindDocumentByEmail ctx db email with
  | (ctx, .ok _) => (ctx, .ok true)
  | (ctx, .error .ErrNotFound) => (ctx, .ok false)
  | (ctx, .error err) => (ctx, .error err)

/-- Function `getUsers`. -/
def getUsers (ctx : Context σ) (db : DbService σ) :
    Context σ × Except GoError (List UserDto) :=
  match callGetAllDocuments ctx db with
  | (ctx, .error err) => (ctx, .error err)
  | (ctx, .ok users) => (ctx, .ok users)

/-- Function `getUserListWithDbContext`: every user mapped to its `UserList`. -/
def getUserListWithDbContext (ctx : Context σ) (db : DbService σ) :
    Context σ × Except GoError (List UserList) :=
  match getUsers ctx db with
  | (ctx, .error err) => (ctx, .error err)
  | (ctx, .ok users) =>
    (ctx, .ok (users.map fun user =>
      { Id := user.Id, Name := user.Name, Role := user.Role,
        Department := user.Department }))

/-- Function `getUserList`. -/
def getUserList (ctx : Context σ) : Context σ × Except GoError (List UserList) :=
  match getDbServiceFromContext ctx with
  | (ctx, none) => (ctx, .error (.other "failed to get db service from context"))
  | (ctx, some db) => getUserListWithDbContext ctx db

/-- Function `getUserById` of `impl_api_user_management.go`: on any error of
`db.FindDocument` a 404 response is written and the error returned. -/
def getUserById (ctx : Context σ) (db : DbService σ) (id : String) :
    Context σ × Except GoError UserDto :=
  match callFindDocument ctx db id with
  | (ctx, .error err) =>
    (ctx.JSON http.StatusNotFound (.H [("error", .str "User not found")]), .error err)
  | (ctx, .ok user) => (ctx, .ok user)

/-- The `gin.H` of the 400 response every handler writes when `ctx.BindJSON` fails. -/
def invalidRequestBody (err : GoError) : Body :=
  .H [("status", .str "Bad Request"),
      ("message", .str "Invalid request body"),
      ("error", .errorOf err)]

/-- The `gin.H` of the 500 response written when `db.UpdateDocument` fails. -/
def failedToUpdateUser (err : GoError) : Body :=
  .H [("status", .str "Internal Server Error"),
      ("message", .str "Failed to update user"),
      ("error", .errorOf err)]

/-! ## Handlers of `impl_api_hr_management.go` -/

/-- Handler `CreateUser`. -/
def CreateUser (ctx : Context σ) (body : Except GoError UserEntry) (newId : String) :
    Context σ :=
  match getDbServiceFromContext ctx with
  | (ctx, none) => ctx
  | (ctx, some db) =>
    match body with
    | .error err => ctx.JSON http.StatusBadRequest (invalidRequestBody err)
    | .ok userEntry =>
      match userWithEmailExists ctx db userEntry.Email with
      | (ctx, .error emailErr) =>
        ctx.JSON http.StatusInternalServerError
          (.H [("status", .str "Internal Server Error"),
               ("message", .str "Failed to check if user with email already exists"),
               ("error", .errorOf emailErr)])
      | (ctx, .ok true) =>
        ctx.JSON http.StatusConflict
          (.H [("status", .str "Conflict"),
               ("message", .str "User with email already exists"),
               ("error", .str "User with email already exists")])
      | (ctx, .ok false) =>
        let user : UserDto :=
          { Id := newId, Name := userEntry.Name, Role := userEntry.Role,
            Phone := userEntry.Phone, Email := userEntry.Email,
            Department := userEntry.Department, PersonalDocument := [] }
        match callCreateDocument ctx db user.Id user with
        | (ctx, none) =>
          match getUserListWithDbContext ctx db with
          | (ctx, .error listErr) =>
            ctx.JSON http.StatusInternalServerError
              (.H [("status", .str "Internal Server Error"),
                   ("message", .str "Failed to get users from database"),
                   ("error", .errorOf listErr)])
          | (ctx, .ok usersResponse) =>
            ctx.JSON http.StatusCreated (.userList usersResponse)
        | (ctx, some .ErrConflict) =>
          ctx.JSON http.StatusConflict
            (.H [("status", .str "Conflict"),
                 ("message", .str "Ambulance already exists"),
                 ("error", .errorOf .ErrConflict)])
        | (ctx, some err) =>
          ctx.JSON http.StatusBadGateway
            (.H [("status", .str "Bad Gateway"),
                 ("message", .str "Failed to create ambulance in database"),
                 ("error", .errorOf err)])

/-- Handler `DeleteUser`. -/
def DeleteUser (ctx : Context σ) (userId : String) : Context σ :=
  match getDbServiceFromContext ctx with
  | (ctx, none) => ctx
  | (ctx, some db) =>
    match callDeleteDocument ctx db userId with
    | (ctx, none) => ctx.JSON http.StatusNoContent (.H [])
    | (ctx, some .ErrNotFound) =>
      ctx.JSON http.StatusNotFound
        (.H [("status", .str "Not Found"),
             ("message", .str "User not found"),
             ("error", .errorOf .ErrNotFound)])
    | (ctx, some err) =>
      ctx.JSON http.StatusInternalServerError
        (.H [("status", .str "Internal Server Error"),
             ("message", .str "Failed to delete user from database"),
             ("error", .errorOf err)])

/-- Handler `GetUser`. -/
def GetUser (ctx : Context σ) (userId : String) : Context σ :=
  match getDbServiceFromContext ctx with
  | (ctx, none) => ctx
  | (ctx, some db) =>
    match callFindDocument ctx db userId with
    | (ctx, .ok user) => ctx.JSON http.StatusOK (.user user)
    | (ctx, .error .ErrNotFound) =>
      ctx.JSON http.StatusNotFound
        (.H [("status", .str "Not Found"),
             ("message", .str "User not found"),
             ("error", .errorOf .ErrNotFound)])
    | (ctx, .error err) =>
      ctx.JSON http.StatusInternalServerError
        (.H [("status", .str "Internal Server Error"),
             ("message", .str "Failed to get user from database"),
             ("error", .errorOf err)])

/-- Handler `GetUsers`. -/
def GetUsers (ctx : Context σ) : Context σ :=
  match getUserList ctx with
  | (ctx, .error err) =>
    ctx.JSON http.StatusInternalServerError
      (.H [("status", .str "Internal Server Error"),
           ("message", .str "Failed to get users from database"),
           ("error", .errorOf err)])
  | (ctx, .ok users) => ctx.JSON http.StatusOK (.userList users)

/-- Handler `UpdateUserDepartment`. -/
def UpdateUserDepartment (ctx : Context σ) (userId : String)
    (body : Except GoError DepartmentDto) : Context σ :=
  match getDbServiceFromContext ctx with
  | (ctx, none) => ctx
  | (ctx, some db) =>
    match body with
    | .error err => ctx.JSON http.StatusBadRequest (invalidRequestBody err)
    | .ok body =>
      match getUserById ctx db userId with
      | (ctx, .error _) => ctx
      | (ctx, .ok user) =>
        let user := { user with Department := body.Department }
        match callUpdateDocument ctx db userId user with
        | (ctx, some err) =>
          ctx.JSON http.StatusInternalServerError (failedToUpdateUser err)
        | (ctx, none) => ctx.JSON http.StatusOK (.user user)

/-! ## Handlers of `impl_api_user_management.go` -/

/-- Handler `AddPersonalDocument`. -/
def AddPersonalDocument (ctx : Context σ) (userId : String)
    (body : Except GoError PersonalDocumentEntry) (newId : String) : Context σ :=
  match body with
  | .error err => ctx.JSON http.StatusBadRequest (invalidRequestBody err)
  | .ok body =>
    match getDbServiceFromContext ctx with
    | (ctx, none) => ctx
    | (ctx, some db) =>
      match getUserById ctx db userId with
      | (ctx, .error _) => ctx
      | (ctx, .ok user) =>
        let personalDocument : PersonalDocument :=
          { Id := newId, Name := body.Name, Content := body.Content }
        let user :=
          { user with PersonalDocument := user.PersonalDocument ++ [personalDocument] }
        match callUpdateDocument ctx db userId user with
        | (ctx, some err) =>
          ctx.JSON http.StatusInternalServerError (failedToUpdateUser err)
        | (ctx, none) => ctx.JSON http.StatusOK (.document personalDocument)

/-- Handler `LoginUser`. -/
def LoginUser (ctx : Context σ) (body : Except GoError LoginEntry) : Context σ :=
  match body with
  | .error err => ctx.JSON http.StatusBadRequest (invalidRequestBody err)
  | .ok body =>
    match getDbServiceFromContext ctx with
    | (ctx, none) => ctx
    | (ctx, some db) =>
      match callFindDocumentByEmail ctx db body.Email with
      | (ctx, .error _) =>
        ctx.JSON http.StatusNotFound (.H [("error", .str "User not found")])
      | (ctx, .ok user) => ctx.JSON http.StatusOK (.user user)

/-- The search loop of `UpdatePersonalDocument`: the index `i` and the value `doc` of
the first element of the slice with `doc.Id == id`, if there is one. -/
def findPersonalDocument : List PersonalDocument → String → Option (Nat × PersonalDocument)
  | [], _ => none
  | doc :: rest, id =>
    if doc.Id = id then some (0, doc)
    else (findPersonalDocument rest id).map fun p => (p.1 + 1, p.2)

/-- Handler `UpdatePersonalDocument`. -/
def UpdatePersonalDocument (ctx : Context σ) (userId : String)
    (body : Except GoError PersonalDocument) : Context σ :=
  match body with
  | .error err => ctx.JSON http.StatusBadRequest (invalidRequestBody err)
  | .ok body =>
    match getDbServiceFromContext ctx with
    | (ctx, none) => ctx
    | (ctx, some db) =>
      match getUserById ctx db userId with
      | (ctx, .error _) => ctx
      | (ctx, .ok user) =>
        match findPersonalDocument user.PersonalDocument body.Id with
        | none =>
          ctx.JSON http.StatusNotFound
            (.H [("status", .str "Not Found"),
                 ("message", .str "Personal document not found")])
        | some (i, doc) =>
          let personalDocumentFromDocument : PersonalDocument :=
            { doc with Name := body.Name, Content := body.Content }
          let user :=
            { user with
              PersonalDocument := user.PersonalDocument.set i personalDocumentFromDocument }
          match callUpdateDocument ctx db userId user with
          | (ctx, some err) =>
            ctx.JSON http.StatusInternalServerError (failedToUpdateUser err)
          | (ctx, none) => ctx.JSON http.StatusOK (.document personalDocumentFromDocument)

/-! ## An in-memory store -/

/-- The state of the in-memory store: the stored records with their keys, in the
order of insertion. -/
abbrev Store := List (String × UserDto)

/-- The record stored under key `id` (the first one, should there be several). -/
def Store.lookup : Store → String → Option UserDto
  | [], _ => none
  | (k, v) :: rest, id => if k = id then some v else Store.lookup rest id

/-- The store with the record under key `id` replaced by `document`. -/
def Store.replace : Store → String → UserDto → Store
  | [], _, _ => []
  | (k, v) :: rest, id, document =>
    if k = id then (k, document) :: rest else (k, v) :: Store.replace rest id document

/-- The store without the record under key `id`. -/
def Store.remove : Store → String → Store
  | [], _ => []
  | (k, v) :: rest, id => if k = id then rest else (k, v) :: Store.remove rest id

/-- The stored records whose email field equals `email`. -/
def Store.withEmail (s : Store) (email : String) : List UserDto :=
  (s.map Prod.snd).filter fun u => u.Email = email

/-- Modelled from the spec: the implementation of `db_service.DbService` is not in
the sources.  This instance follows the contract of the document store: `create`
fails with Conflict when the key exists and otherwise makes the record retrievable;
`find` returns the record or NotFound; `findBySecondaryKey` returns the single record
with the email, NotFound when none matches and another error on ambiguity; `listAll`
returns all records; `update` replaces the stored value wholesale or fails with
NotFound; `delete` removes the record or fails with NotFound.  It has no storage
faults. -/
def memDb : DbService Store where
  CreateDocument s id document :=
    match s.lookup id with
    | some _ => (some .ErrConflict, s)
    | none => (none, s ++ [(id, document)])
  FindDocument s id :=
    match s.lookup id with
    | some v => (.ok v, s)
    | none => (.error .ErrNotFound, s)
  FindDocumentByEmail s email :=
    match s.withEmail email with
    | [] => (.error .ErrNotFound, s)
    | [v] => (.ok v, s)
    | _ => (.error (.other "more than one document matches"), s)
  GetAllDocuments s := (.ok (s.map Prod.snd), s)
  UpdateDocument s id document :=
    match s.lookup id with
    | some _ => (none, s.replace id document)
    | none => (some .ErrNotFound, s)
  DeleteDocument s id :=
    match s.lookup id with
    | some _ => (none, s.remove id)
    | none => (some .ErrNotFound, s)

/-- A store in which every call fails with `err` and nothing is ever stored. -/
def failingDb (err : GoError) : DbService Unit where
  CreateDocument _ _ _ := (some err, ())
  FindDocument _ _ := (.error err, ())
  FindDocumentByEmail _ _ := (.error err, ())
  GetAllDocuments _ := (.error err, ())
  UpdateDocument _ _ _ := (some err, ())
  DeleteDocument _ _ := (some err, ())

/-- The context of a request that the middleware of `main.go` has given the
in-memory store, before the handler runs. -/
def request (s : Store) : Context Store :=
  { db_service := .service memDb, store := s, calls := [], written := [] }

/-- The email fields of the stored records, in store order. -/
def Store.emails (s : Store) : List String :=
  s.map fun p => p.2.Email

/-- Email uniqueness: no two stored records have the same email. -/
def EmailsUnique (s : Store) : Prop :=
  s.emails.Nodup

/-- The identifier `id` is unused in the store: it is no key and no record carries it. -/
def Fresh (id : String) (s : Store) : Prop :=
  ∀ p ∈ s, p.1 ≠ id ∧ p.2.Id ≠ id

/-- The list projection of a user record, as `getUserListWithDbContext` builds it. -/
def UserDto.toUserList (user : UserDto) : UserList :=
  { Id := user.Id, Name := user.Name, Role := user.Role, Department := user.Department }

/-- The record `CreateUser` assembles from the creation input and the new identifier. -/
def UserEntry.toUserDto (userEntry : UserEntry) (newId : String) : UserDto :=
  { Id := newId, Name := userEntry.Name, Role := userEntry.Role,
    Phone := userEntry.Phone, Email := userEntry.Email,
    Department := userEntry.Department, PersonalDocument := [] }

/-- The name, role and department of a list entry are those of the creation input. -/
def MatchesEntry (userEntry : UserEntry) (x : UserList) : Prop :=
  x.Name = userEntry.Name ∧ x.Role = userEntry.Role ∧ x.Department = userEntry.Department

instance (userEntry : UserEntry) (x : UserList) : Decidable (MatchesEntry userEntry x) := by
  unfold MatchesEntry; infer_instance

instance (s : Store) : Decidable (EmailsUnique s) := by
  unfold EmailsUnique; infer_instance

instance (id : String) (s : Store) : Decidable (Fresh id s) := by
  unfold Fresh; infer_instance

/-! ## Example data -/

/-- Example record: Alice, a nurse of department ER, stored under `u1`. -/
def aliceRecord : UserDto :=
  { Id := "u1", Name := "Alice", Role := "Nurse", Phone := "0900", Email := "a@x.com",
    Department := "ER", PersonalDocument := [] }

/-- Example store state: only Alice is stored. -/
def aliceStore : Store := [("u1", aliceRecord)]

/-- Example creation input: another person with the email of Alice. -/
def bobWithAliceEmail : UserEntry :=
  { Name := "Bob", Role := "Doctor", Phone := "0911", Email := "a@x.com",
    Department := "ICU" }

/-- Example creation input: a second Alice, nurse of ER, with an email of her own. -/
def secondAlice : UserEntry :=
  { Name := "Alice", Role := "Nurse", Phone := "0922", Email := "b@x.com",
    Department := "ER" }

/-- Example record: Alice with two personal documents. -/
def aliceWithDocuments : UserDto :=
  { aliceRecord with
    PersonalDocument := [⟨"d1", "contract", "v1"⟩, ⟨"d2", "diploma", "v1"⟩] }

/-- Example store state: Alice with two personal documents, and Bob. -/
def wardStore : Store :=
  [("u1", aliceWithDocuments),
   ("u2", ⟨"u2", "Bob", "Doctor", "0911", "bob@x.com", "ICU", []⟩)]

/-! ## Sequences of requests against the in-memory store -/

/-- A request for one of the state-changing operations, with everything the handler
reads: the path parameter, the result of binding the body and the identifier that
`uuid.New()` returns should the handler ask for one. -/
inductive Request where
  | CreateUser (body : Except GoError UserEntry) (newId : String)
  | DeleteUser (userId : String)
  | UpdateUserDepartment (userId : String) (body : Except GoError DepartmentDto)
  | AddPersonalDocument (userId : String) (body : Except GoError PersonalDocumentEntry)
      (newId : String)
  | UpdatePersonalDocument (userId : String) (body : Except GoError PersonalDocument)

/-- The store after the handler of the request has run against the in-memory store in
state `s`. -/
def serve (s : Store) : Request → Store
  | .CreateUser body newId => (CreateUser (request s) body newId).store
  | .DeleteUser userId => (DeleteUser (request s) userId).store
  | .UpdateUserDepartment userId body => (UpdateUserDepartment (request s) userId body).store
  | .AddPersonalDocument userId body newId =>
    (AddPersonalDocument (request s) userId body newId).store
  | .UpdatePersonalDocument userId body =>
    (UpdatePersonalDocument (request s) userId body).store

/-- The store after the requests have been served one after another, starting from
the empty store. -/
def serveAll (requests : List Request) : Store :=
  requests.foldl serve []

/-- The round trip: a user is created, two documents are added to it, the first one
is updated by its identifier, and the user is fetched; each request runs against the
store the previous one left. -/
def roundTrip (s : Store) (userEntry : UserEntry) (userId : String)
    (d1 : PersonalDocumentEntry) (id1 : String) (d2 : PersonalDocumentEntry) (id2 : String)
    (name content : String) : Context Store :=
  let s1 := (CreateUser (request s) (.ok userEntry) userId).store
  let s2 := (AddPersonalDocument (request s1) userId (.ok d1) id1).store
  let s3 := (AddPersonalDocument (request s2) userId (.ok d2) id2).store
  let s4 := (UpdatePersonalDocument (request s3) userId (.ok ⟨id1, name, content⟩)).store
  GetUser (request s4) userId

/-- The path parameter `userId` of a request (the generated identifier for
`CreateUser`, which has no path parameter). -/
def Request.userKey : Request → String
  | .CreateUser _ newId => newId
  | .DeleteUser userId => userId
  | .UpdateUserDepartment userId _ => userId
  | .AddPersonalDocument userId _ _ => userId
  | .UpdatePersonalDocument userId _ => userId

/-- The context of a request whose store handle fails every call with a storage
fault that is neither `ErrNotFound` nor `ErrConflict`. -/
def faultyRequest : Context Unit :=
  { db_service := .service (failingDb (.other "connection reset")), store := (),
    calls := [], written := [] }

/-- The context of a request in which the middleware has set no `db_service`. -/
def requestWithoutHandle : Context Store :=
  { db_service := .absent, store := aliceStore, calls := [], written := [] }

/-! ## Facts about the in-memory store -/

theorem Store.withEmail_cons (k : String) (v : UserDto) (s : Store) (email : String) :
    Store.withEmail ((k, v) :: s) email
      = if v.Email = email then v :: Store.withEmail s email else Store.withEmail s email := by
  unfold Store.withEmail
  by_cases h : v.Email = email <;> simp [h, List.filter_cons]

theorem Store.withEmail_eq_nil (s : Store) (email : String) :
    s.withEmail email = [] ↔ email ∉ s.emails := by
  induction s with
  | nil => simp [Store.withEmail, Store.emails]
  | cons p s ih =>
    obtain ⟨k, v⟩ := p
    rw [Store.withEmail_cons]
    by_cases h : v.Email = email
    · simp [h, Store.emails]
    · have h2 : ¬ email = v.Email := fun e => h e.symm
      simp only [if_neg h, ih]
      simp [Store.emails, h2]

theorem Store.withEmail_singleton (s : Store) (hu : EmailsUnique s) (u : UserDto)
    (hmem : u ∈ s.map Prod.snd) : s.withEmail u.Email = [u] := by
  induction s with
  | nil => simp at hmem
  | cons p s ih =>
    obtain ⟨k, v⟩ := p
    have hnd : v.Email ∉ Store.emails s ∧ EmailsUnique s := by
      simpa [EmailsUnique, Store.emails] using hu
    rw [Store.withEmail_cons]
    simp only [List.map_cons, List.mem_cons] at hmem
    by_cases h : v.Email = u.Email
    · have hnil : Store.withEmail s u.Email = [] := by
        rw [Store.withEmail_eq_nil, ← h]; exact hnd.1
      rcases hmem with rfl | hmem
      · simp [hnil]
      · exfalso
        apply hnd.1
        rw [h]
        simp only [Store.emails, List.mem_map] at hmem ⊢
        obtain ⟨q, hq, rfl⟩ := hmem
        exact ⟨q, hq, rfl⟩
    · rw [if_neg h]
      rcases hmem with rfl | hmem
      · exact absurd rfl h
      · exact ih hnd.2 hmem

/-! ## Create User -/

/-- C1: on the in-memory store, in a state with unique emails, `CreateUser` with an
input whose email is the email of a stored user writes exactly one response, the 409
Conflict `User with email already exists`; its only store call is the lookup by
email, so `CreateDocument` is never called; and the store is left exactly as it was
(same records, same count). -/
theorem createUser_existing_email_conflict (s : Store) (userEntry : UserEntry)
    (newId : String) (hu : EmailsUnique s)
    (hex : ∃ u ∈ s.map Prod.snd, u.Email = userEntry.Email) :
    (CreateUser (request s) (.ok userEntry) newId).written
        = [⟨http.StatusConflict,
            .H [("status", .str "Conflict"),
                ("message", .str "User with email already exists"),
                ("error", .str "User with email already exists")]⟩]
      ∧ (CreateUser (request s) (.ok userEntry) newId).calls
        = [.FindDocumentByEmail userEntry.Email]
      ∧ (∀ id document,
          DbCall.CreateDocument id document
            ∉ (CreateUser (request s) (.ok userEntry) newId).calls)
      ∧ (CreateUser (request s) (.ok userEntry) newId).store = s
      ∧ (CreateUser (request s) (.ok userEntry) newId).store.length = s.length := by
  obtain ⟨u, hmem, hemail⟩ := hex
  have hw : s.withEmail userEntry.Email = [u] := by
    rw [← hemail]; exact Store.withEmail_singleton s hu u hmem
  simp [CreateUser, getDbServiceFromContext, request, userWithEmailExists,
    callFindDocumentByEmail, memDb, hw, Context.JSON]

/-- Witness of C1: the store holds Alice, and Bob is created with her email. -/
theorem createUser_existing_email_conflict_witness :
    EmailsUnique aliceStore
      ∧ (∃ u ∈ aliceStore.map Prod.snd, u.Email = bobWithAliceEmail.Email)
      ∧ (CreateUser (request aliceStore) (.ok bobWithAliceEmail) "u2").written
        = [⟨409,
            .H [("status", .str "Conflict"),
                ("message", .str "User with email already exists"),
                ("error", .str "User with email already exists")]⟩]
      ∧ (CreateUser (request aliceStore) (.ok bobWithAliceEmail) "u2").store
        = aliceStore :=
  have hu : EmailsUnique aliceStore := by
    simp [EmailsUnique, Store.emails, aliceStore]
  have hex : ∃ u ∈ aliceStore.map Prod.snd, u.Email = bobWithAliceEmail.Email :=
    ⟨aliceRecord, by simp [aliceStore], rfl⟩
  have h := createUser_existing_email_conflict aliceStore bobWithAliceEmail "u2" hu hex
  ⟨hu, hex, h.1, h.2.2.2.1⟩

/-- What `CreateUser` does on the in-memory store when the email is unused and the
new identifier is no key of the store: the record is appended and the projection of
all records is returned with 201. -/
theorem createUser_unused_email (s : Store) (userEntry : UserEntry) (newId : String)
    (hemail : s.withEmail userEntry.Email = []) (hkey : s.lookup newId = none) :
    CreateUser (request s) (.ok userEntry) newId
      = { db_service := .service memDb,
          store := s ++ [(newId, userEntry.toUserDto newId)],
          calls := [.FindDocumentByEmail userEntry.Email,
                    .CreateDocument newId (userEntry.toUserDto newId),
                    .GetAllDocuments],
          written := [⟨http.StatusCreated,
            .userList ((s ++ [(newId, userEntry.toUserDto newId)]).map
              fun p => p.2.toUserList)⟩] } := by
  simp [CreateUser, getDbServiceFromContext, request, userWithEmailExists,
    callFindDocumentByEmail, memDb, hemail, hkey, Context.JSON, callCreateDocument,
    getUserListWithDbContext, getUsers, callGetAllDocuments, UserEntry.toUserDto,
    UserDto.toUserList]

theorem Store.lookup_eq_none_of_fresh (s : Store) (id : String) (h : Fresh id s) :
    s.lookup id = none := by
  induction s with
  | nil => rfl
  | cons p s ih =>
    obtain ⟨k, v⟩ := p
    have hk : k ≠ id := (h (k, v) (by simp)).1
    simp only [Store.lookup, if_neg hk]
    exact ih fun q hq => h q (by simp [hq])

/-- C2, counterexample: Alice (nurse, ER) is stored; a second Alice (nurse, ER) with an
unused email and a fresh identifier is created.  `CreateUser` answers 201 and the
returned list has two entries whose name, role and department match the input, not
exactly one. -/
theorem createUser_two_entries_match_input :
    aliceStore.withEmail secondAlice.Email = []
      ∧ Fresh "u2" aliceStore
      ∧ (CreateUser (request aliceStore) (.ok secondAlice) "u2").written
        = [⟨201, .userList [⟨"u1", "Alice", "Nurse", "ER"⟩, ⟨"u2", "Alice", "Nurse", "ER"⟩]⟩]
      ∧ ([(⟨"u1", "Alice", "Nurse", "ER"⟩ : UserList), ⟨"u2", "Alice", "Nurse", "ER"⟩].filter
          fun x => MatchesEntry secondAlice x).length = 2 := by
  refine ⟨by simp [Store.withEmail, aliceStore, aliceRecord, secondAlice], ?_, ?_, ?_⟩
  · intro p hp
    simp [aliceStore, aliceRecord] at hp
    subst hp
    simp
  · rw [createUser_unused_email _ _ _
      (by simp [Store.withEmail, aliceStore, aliceRecord, secondAlice])
      (by simp [Store.lookup, aliceStore])]
    simp [aliceStore, aliceRecord, secondAlice, UserEntry.toUserDto, UserDto.toUserList,
      http.StatusCreated]
  · simp [MatchesEntry, secondAlice]

/-- C2, amended: on the in-memory store, for every state and every well-formed
creation input whose email no stored user has, with a fresh generated identifier,
`CreateUser` writes exactly one response, 201 Created, carrying the list projection
of all users after the insertion; the store is the old one with the new record
appended; the list has exactly one entry with the generated identifier, whose name,
role and department are those of the input; and the entries whose name, role and
department match the input are one more than among the users stored before. -/
theorem createUser_new_email_created (s : Store) (userEntry : UserEntry) (newId : String)
    (hemail : ∀ u ∈ s.map Prod.snd, u.Email ≠ userEntry.Email) (hfresh : Fresh newId s) :
    ∃ usersResponse : List UserList,
      (CreateUser (request s) (.ok userEntry) newId).written
          = [⟨http.StatusCreated, .userList usersResponse⟩]
        ∧ (CreateUser (request s) (.ok userEntry) newId).store
          = s ++ [(newId, userEntry.toUserDto newId)]
        ∧ usersResponse
          = (CreateUser (request s) (.ok userEntry) newId).store.map
              (fun p => p.2.toUserList)
        ∧ usersResponse.filter (fun x => x.Id = newId)
          = [⟨newId, userEntry.Name, userEntry.Role, userEntry.Department⟩]
        ∧ (usersResponse.filter fun x => MatchesEntry userEntry x).length
          = ((s.map fun p => p.2.toUserList).filter
              fun x => MatchesEntry userEntry x).length + 1 := by
  have hw : s.withEmail userEntry.Email = [] := by
    rw [Store.withEmail_eq_nil]
    intro hmem
    simp only [Store.emails, List.mem_map] at hmem
    obtain ⟨p, hp, he⟩ := hmem
    exact hemail p.2 (List.mem_map.mpr ⟨p, hp, rfl⟩) he
  have hk := Store.lookup_eq_none_of_fresh s newId hfresh
  rw [createUser_unused_email s userEntry newId hw hk]
  refine ⟨_, rfl, rfl, rfl, ?_, ?_⟩
  · have hnone : (s.map fun p => p.2.toUserList).filter (fun x => x.Id = newId) = [] := by
      rw [List.filter_eq_nil_iff]
      intro x hx
      simp only [List.mem_map] at hx
      obtain ⟨p, hp, rfl⟩ := hx
      simpa [UserDto.toUserList] using (hfresh p hp).2
    simp only [List.map_append, List.filter_append, hnone]
    simp [UserEntry.toUserDto, UserDto.toUserList]
  · simp [List.filter_append, UserEntry.toUserDto, UserDto.toUserList, MatchesEntry]

/-- Witness of C2 (amended): the second Alice is created in the store holding Alice. -/
theorem createUser_new_email_created_witness :
    (∀ u ∈ aliceStore.map Prod.snd, u.Email ≠ secondAlice.Email)
      ∧ Fresh "u2" aliceStore
      ∧ ∃ usersResponse : List UserList,
          (CreateUser (request aliceStore) (.ok secondAlice) "u2").written
            = [⟨201, .userList usersResponse⟩]
          ∧ usersResponse.filter (fun x => x.Id = "u2")
            = [⟨"u2", "Alice", "Nurse", "ER"⟩] :=
  have hemail : ∀ u ∈ aliceStore.map Prod.snd, u.Email ≠ secondAlice.Email := by
    simp [aliceStore, aliceRecord, secondAlice]
  have hfresh : Fresh "u2" aliceStore := by
    simp [Fresh, aliceStore, aliceRecord]
  have h := createUser_new_email_created aliceStore secondAlice "u2" hemail hfresh
  ⟨hemail, hfresh, h.imp fun _ hl => ⟨hl.1, hl.2.2.2.1⟩⟩

/-! ## Update Department -/

theorem Store.lookup_replace_self (s : Store) (id : String) (u document : UserDto)
    (h : s.lookup id = some u) : (s.replace id document).lookup id = some document := by
  induction s with
  | nil => simp [Store.lookup] at h
  | cons p s ih =>
    obtain ⟨k, v⟩ := p
    by_cases hk : k = id
    · simp [Store.replace, Store.lookup, hk]
    · simp only [Store.lookup, if_neg hk] at h
      simp only [Store.replace, Store.lookup, if_neg hk]
      exact ih h

theorem Store.lookup_replace_of_ne (s : Store) (id k : String) (document : UserDto)
    (hne : k ≠ id) : (s.replace id document).lookup k = s.lookup k := by
  induction s with
  | nil => rfl
  | cons p s ih =>
    obtain ⟨k', v⟩ := p
    by_cases hk : k' = id
    · subst hk
      have hkk : ¬ k' = k := fun e => hne e.symm
      simp [Store.replace, Store.lookup, hkk]
    · by_cases hkk : k' = k
      · simp only [Store.replace, if_neg hk, Store.lookup, if_pos hkk]
      · simp only [Store.replace, if_neg hk, Store.lookup, if_neg hkk]
        exact ih

theorem Store.map_fst_replace (s : Store) (id : String) (document : UserDto) :
    (s.replace id document).map Prod.fst = s.map Prod.fst := by
  induction s with
  | nil => rfl
  | cons p s ih =>
    obtain ⟨k, v⟩ := p
    by_cases hk : k = id
    · simp [Store.replace, hk]
    · simp [Store.replace, hk, ih]

/-- What `UpdateUserDepartment` does on the in-memory store for a stored user. -/
theorem updateUserDepartment_stored (s : Store) (userId : String) (u : UserDto)
    (body : DepartmentDto) (h : s.lookup userId = some u) :
    UpdateUserDepartment (request s) userId (.ok body)
      = { db_service := .service memDb,
          store := s.replace userId { u with Department := body.Department },
          calls := [.FindDocument userId,
                    .UpdateDocument userId { u with Department := body.Department }],
          written := [⟨http.StatusOK, .user { u with Department := body.Department }⟩] } := by
  simp [UpdateUserDepartment, getDbServiceFromContext, request, getUserById,
    callFindDocument, memDb, h, callUpdateDocument, Context.JSON]

/-- C4: on the in-memory store, for every user `u` stored under `userId` and every
department input, `UpdateUserDepartment` fetches the record and writes back, under
the same identifier, the record with the id, name, role, phone, email and
personal-document sequence of `u` and the department of the input; the one response,
200, carries the record written; afterwards that record is the one stored under
`userId`, the keys of the store are the same, and the record under every other
identifier is as before. -/
theorem updateUserDepartment_frame (s : Store) (userId : String) (u : UserDto)
    (body : DepartmentDto) (h : s.lookup userId = some u) :
    (UpdateUserDepartment (request s) userId (.ok body)).calls
        = [.FindDocument userId,
           .UpdateDocument userId
             ⟨u.Id, u.Name, u.Role, u.Phone, u.Email, body.Department, u.PersonalDocument⟩]
      ∧ (UpdateUserDepartment (request s) userId (.ok body)).written
        = [⟨http.StatusOK,
            .user ⟨u.Id, u.Name, u.Role, u.Phone, u.Email, body.Department,
              u.PersonalDocument⟩⟩]
      ∧ (UpdateUserDepartment (request s) userId (.ok body)).store.lookup userId
        = some ⟨u.Id, u.Name, u.Role, u.Phone, u.Email, body.Department, u.PersonalDocument⟩
      ∧ (UpdateUserDepartment (request s) userId (.ok body)).store.map Prod.fst
        = s.map Prod.fst
      ∧ ∀ k, k ≠ userId →
          (UpdateUserDepartment (request s) userId (.ok body)).store.lookup k
            = s.lookup k := by
  rw [updateUserDepartment_stored s userId u body h]
  exact ⟨rfl, rfl, Store.lookup_replace_self s userId u _ h,
    Store.map_fst_replace s userId _,
    fun k hk => Store.lookup_replace_of_ne s userId k _ hk⟩

/-- Witness of C4: Alice of the ward store moves from ER to ICU; Bob is untouched. -/
theorem updateUserDepartment_frame_witness :
    wardStore.lookup "u1" = some aliceWithDocuments
      ∧ (UpdateUserDepartment (request wardStore) "u1" (.ok ⟨"ICU"⟩)).written
        = [⟨200, .user ⟨"u1", "Alice", "Nurse", "0900", "a@x.com", "ICU",
            [⟨"d1", "contract", "v1"⟩, ⟨"d2", "diploma", "v1"⟩]⟩⟩]
      ∧ (UpdateUserDepartment (request wardStore) "u1" (.ok ⟨"ICU"⟩)).store.lookup "u2"
        = wardStore.lookup "u2" :=
  have hl : wardStore.lookup "u1" = some aliceWithDocuments := by
    simp [wardStore, Store.lookup]
  have h := updateUserDepartment_frame wardStore "u1" aliceWithDocuments ⟨"ICU"⟩ hl
  ⟨hl, h.2.1, h.2.2.2.2 "u2" (by decide)⟩

/-! ## Add Personal Document -/

/-- What `AddPersonalDocument` does on the in-memory store for a stored user. -/
theorem addPersonalDocument_stored (s : Store) (userId : String) (u : UserDto)
    (body : PersonalDocumentEntry) (newId : String) (h : s.lookup userId = some u) :
    AddPersonalDocument (request s) userId (.ok body) newId
      = { db_service := .service memDb,
          store := s.replace userId
            { u with PersonalDocument :=
                u.PersonalDocument ++ [⟨newId, body.Name, body.Content⟩] },
          calls := [.FindDocument userId,
                    .UpdateDocument userId
                      { u with PersonalDocument :=
                          u.PersonalDocument ++ [⟨newId, body.Name, body.Content⟩] }],
          written := [⟨http.StatusOK, .document ⟨newId, body.Name, body.Content⟩⟩] } := by
  simp [AddPersonalDocument, getDbServiceFromContext, request, getUserById,
    callFindDocument, memDb, h, callUpdateDocument, Context.JSON]

/-- C5: on the in-memory store, for every user `u` stored under `userId` with
personal-document sequence `ds` and every document input, with a generated identifier
that no document of `ds` carries, `AddPersonalDocument` writes back, under `userId`,
the user with the sequence `ds` followed by exactly one new document carrying the
name and content of the input and the generated identifier, and with every other
field as fetched; the one response, 200, carries that new document; afterwards the
stored sequence has one entry more, its first entries are `ds` in order, its last
entry is the new document, and the new identifier differs from every identifier of
`ds`. -/
theorem addPersonalDocument_appends (s : Store) (userId : String) (u : UserDto)
    (body : PersonalDocumentEntry) (newId : String) (h : s.lookup userId = some u)
    (hnew : ∀ d ∈ u.PersonalDocument, d.Id ≠ newId) :
    (AddPersonalDocument (request s) userId (.ok body) newId).calls
        = [.FindDocument userId,
           .UpdateDocument userId
             ⟨u.Id, u.Name, u.Role, u.Phone, u.Email, u.Department,
               u.PersonalDocument ++ [⟨newId, body.Name, body.Content⟩]⟩]
      ∧ (AddPersonalDocument (request s) userId (.ok body) newId).written
        = [⟨http.StatusOK, .document ⟨newId, body.Name, body.Content⟩⟩]
      ∧ ∃ stored : UserDto,
          (AddPersonalDocument (request s) userId (.ok body) newId).store.lookup userId
            = some stored
          ∧ stored
            = ⟨u.Id, u.Name, u.Role, u.Phone, u.Email, u.Department,
                u.PersonalDocument ++ [⟨newId, body.Name, body.Content⟩]⟩
          ∧ stored.PersonalDocument.length = u.PersonalDocument.length + 1
          ∧ stored.PersonalDocument.take u.PersonalDocument.length = u.PersonalDocument
          ∧ stored.PersonalDocument.getLast? = some ⟨newId, body.Name, body.Content⟩
          ∧ newId ∉ u.PersonalDocument.map PersonalDocument.Id := by
  rw [addPersonalDocument_stored s userId u body newId h]
  refine ⟨rfl, rfl, _, Store.lookup_replace_self s userId u _ h, rfl, ?_, ?_, ?_, ?_⟩
  · simp
  · simp
  · simp
  · intro hmem
    obtain ⟨d, hd, hid⟩ := List.mem_map.mp hmem
    exact hnew d hd hid

/-- Witness of C5: a third document is added to Alice of the ward store. -/
theorem addPersonalDocument_appends_witness :
    wardStore.lookup "u1" = some aliceWithDocuments
      ∧ (∀ d ∈ aliceWithDocuments.PersonalDocument, d.Id ≠ "d3")
      ∧ (AddPersonalDocument (request wardStore) "u1" (.ok ⟨"visa", "v1"⟩) "d3").written
        = [⟨200, .document ⟨"d3", "visa", "v1"⟩⟩]
      ∧ ∃ stored : UserDto,
          (AddPersonalDocument (request wardStore) "u1" (.ok ⟨"visa", "v1"⟩) "d3").store.lookup
              "u1" = some stored
          ∧ stored.PersonalDocument
            = [⟨"d1", "contract", "v1"⟩, ⟨"d2", "diploma", "v1"⟩, ⟨"d3", "visa", "v1"⟩] :=
  have hl : wardStore.lookup "u1" = some aliceWithDocuments := by
    simp [wardStore, Store.lookup]
  have hnew : ∀ d ∈ aliceWithDocuments.PersonalDocument, d.Id ≠ "d3" := by
    simp [aliceWithDocuments]
  have h := addPersonalDocument_appends wardStore "u1" aliceWithDocuments
    ⟨"visa", "v1"⟩ "d3" hl hnew
  ⟨hl, hnew, h.2.1, h.2.2.imp fun stored hs => ⟨hs.1, by rw [hs.2.1]; rfl⟩⟩

/-! ## Update Personal Document -/

theorem findPersonalDocument_eq_none (ds : List PersonalDocument) (id : String) :
    findPersonalDocument ds id = none ↔ ∀ d ∈ ds, d.Id ≠ id := by
  induction ds with
  | nil => simp [findPersonalDocument]
  | cons d ds ih =>
    by_cases hd : d.Id = id
    · simp [findPersonalDocument, hd]
    · simp [findPersonalDocument, hd, ih]

theorem findPersonalDocument_eq_some (ds : List PersonalDocument) (id : String)
    (i : Nat) (doc : PersonalDocument) (h : findPersonalDocument ds id = some (i, doc)) :
    ds[i]? = some doc ∧ doc.Id = id ∧ ∀ j, j < i → ∀ d, ds[j]? = some d → d.Id ≠ id := by
  induction ds generalizing i with
  | nil => simp [findPersonalDocument] at h
  | cons d ds ih =>
    by_cases hd : d.Id = id
    · simp only [findPersonalDocument, if_pos hd, Option.some.injEq, Prod.mk.injEq] at h
      obtain ⟨rfl, rfl⟩ := h
      exact ⟨by simp, hd, fun j hj => absurd hj (Nat.not_lt_zero j)⟩
    · simp only [findPersonalDocument, if_neg hd, Option.map_eq_some', Prod.mk.injEq] at h
      obtain ⟨⟨i', doc'⟩, hfind, rfl, rfl⟩ := h
      obtain ⟨hget, hid, hbefore⟩ := ih i' hfind
      refine ⟨by simpa using hget, hid, ?_⟩
      intro j hj e he
      cases j with
      | zero =>
        simp only [List.getElem?_cons_zero, Option.some.injEq] at he
        subst he
        exact hd
      | succ j =>
        simp only [List.getElem?_cons_succ] at he
        exact hbefore j (by omega) e he

/-- What `UpdatePersonalDocument` does on the in-memory store when the search loop
finds the document at index `i`. -/
theorem updatePersonalDocument_found (s : Store) (userId : String) (u : UserDto)
    (body : PersonalDocument) (i : Nat) (doc : PersonalDocument)
    (h : s.lookup userId = some u)
    (hfind : findPersonalDocument u.PersonalDocument body.Id = some (i, doc)) :
    UpdatePersonalDocument (request s) userId (.ok body)
      = { db_service := .service memDb,
          store := s.replace userId
            { u with PersonalDocument :=
                u.PersonalDocument.set i ⟨doc.Id, body.Name, body.Content⟩ },
          calls := [.FindDocument userId,
                    .UpdateDocument userId
                      { u with PersonalDocument :=
                          u.PersonalDocument.set i ⟨doc.Id, body.Name, body.Content⟩ }],
          written := [⟨http.StatusOK, .document ⟨doc.Id, body.Name, body.Content⟩⟩] } := by
  simp [UpdatePersonalDocument, getDbServiceFromContext, request, getUserById,
    callFindDocument, memDb, h, hfind, callUpdateDocument, Context.JSON]

/-- C6: on the in-memory store, for every user `u` stored under `userId` and every
update input whose identifier is carried by some document of the personal-document
sequence `ds` of `u`, there is a position `i` holding the first document `doc` of `ds`
with that identifier such that `UpdatePersonalDocument` writes back, under `userId`,
the user with every field as fetched except the sequence, which is `ds` with position
`i` set to the document with the identifier of `doc` and the name and content of the
input; the sequence written has the length of `ds` and agrees with `ds` at every
other position; the record is stored under `userId` afterwards; and the one response,
200, carries the updated entry. -/
theorem updatePersonalDocument_in_place (s : Store) (userId : String) (u : UserDto)
    (body : PersonalDocument) (h : s.lookup userId = some u)
    (hex : ∃ d ∈ u.PersonalDocument, d.Id = body.Id) :
    ∃ (i : Nat) (doc : PersonalDocument) (ds : List PersonalDocument),
      u.PersonalDocument[i]? = some doc
        ∧ doc.Id = body.Id
        ∧ (∀ j, j < i → ∀ d, u.PersonalDocument[j]? = some d → d.Id ≠ body.Id)
        ∧ ds = u.PersonalDocument.set i ⟨doc.Id, body.Name, body.Content⟩
        ∧ ds.length = u.PersonalDocument.length
        ∧ ds[i]? = some ⟨doc.Id, body.Name, body.Content⟩
        ∧ (∀ j, j ≠ i → ds[j]? = u.PersonalDocument[j]?)
        ∧ (UpdatePersonalDocument (request s) userId (.ok body)).calls
          = [.FindDocument userId,
             .UpdateDocument userId
               ⟨u.Id, u.Name, u.Role, u.Phone, u.Email, u.Department, ds⟩]
        ∧ (UpdatePersonalDocument (request s) userId (.ok body)).store.lookup userId
          = some ⟨u.Id, u.Name, u.Role, u.Phone, u.Email, u.Department, ds⟩
        ∧ (UpdatePersonalDocument (request s) userId (.ok body)).written
          = [⟨http.StatusOK, .document ⟨doc.Id, body.Name, body.Content⟩⟩] := by
  cases hfind : findPersonalDocument u.PersonalDocument body.Id with
  | none =>
    obtain ⟨d, hd, hid⟩ := hex
    exact absurd hid ((findPersonalDocument_eq_none _ _).mp hfind d hd)
  | some p =>
    obtain ⟨i, doc⟩ := p
    obtain ⟨hget, hid, hbefore⟩ := findPersonalDocument_eq_some _ _ i doc hfind
    have hi : i < u.PersonalDocument.length := by
      rcases Nat.lt_or_ge i u.PersonalDocument.length with hlt | hge
      · exact hlt
      · rw [List.getElem?_eq_none hge] at hget
        exact absurd hget (by simp)
    rw [updatePersonalDocument_found s userId u body i doc h hfind]
    refine ⟨i, doc, _, hget, hid, hbefore, rfl, by simp, ?_, ?_, rfl,
      Store.lookup_replace_self s userId u _ h, rfl⟩
    · simp [List.getElem?_set, hi]
    · intro j hj
      have hij : ¬ i = j := fun e => hj e.symm
      simp [List.getElem?_set, hij]

/-- Witness of C6: the first document of Alice of the ward store is renamed. -/
theorem updatePersonalDocument_in_place_witness :
    wardStore.lookup "u1" = some aliceWithDocuments
      ∧ (∃ d ∈ aliceWithDocuments.PersonalDocument,
          d.Id = (⟨"d1", "contract", "v2"⟩ : PersonalDocument).Id)
      ∧ ∃ (i : Nat) (doc : PersonalDocument) (ds : List PersonalDocument),
          aliceWithDocuments.PersonalDocument[i]? = some doc
            ∧ ds.length = aliceWithDocuments.PersonalDocument.length
            ∧ (UpdatePersonalDocument (request wardStore) "u1"
                (.ok ⟨"d1", "contract", "v2"⟩)).written
              = [⟨200, .document ⟨doc.Id, "contract", "v2"⟩⟩] :=
  have hl : wardStore.lookup "u1" = some aliceWithDocuments := by
    simp [wardStore, Store.lookup]
  have hex : ∃ d ∈ aliceWithDocuments.PersonalDocument,
      d.Id = (⟨"d1", "contract", "v2"⟩ : PersonalDocument).Id :=
    ⟨⟨"d1", "contract", "v1"⟩, by simp [aliceWithDocuments], rfl⟩
  have h := updatePersonalDocument_in_place wardStore "u1" aliceWithDocuments
    ⟨"d1", "contract", "v2"⟩ hl hex
  ⟨hl, hex, h.imp fun _ h1 => h1.imp fun _ h2 => h2.imp fun _ h3 =>
    ⟨h3.1, h3.2.2.2.2.1, h3.2.2.2.2.2.2.2.2.2⟩⟩

/-- What `UpdatePersonalDocument` does on the in-memory store when no user is stored
under `userId`: the 404 of `getUserById`. -/
theorem updatePersonalDocument_user_missing (s : Store) (userId : String)
    (body : PersonalDocument) (h : s.lookup userId = none) :
    UpdatePersonalDocument (request s) userId (.ok body)
      = { db_service := .service memDb, store := s, calls := [.FindDocument userId],
          written := [⟨http.StatusNotFound, .H [("error", .str "User not found")]⟩] } := by
  simp [UpdatePersonalDocument, getDbServiceFromContext, request, getUserById,
    callFindDocument, memDb, h, Context.JSON]

/-- C7: on the in-memory store, for every user `u` stored under `userId` and every
update input whose identifier no personal document of `u` carries (an empty sequence
included), `UpdatePersonalDocument` writes exactly one response, the 404
`Personal document not found`; this response differs from what the same request
writes when no user is stored under `userId`; the only store call is the lookup of
the user, so no update is issued; and the store, hence the stored user, is unchanged. -/
theorem updatePersonalDocument_unknown_document (s : Store) (userId : String)
    (u : UserDto) (body : PersonalDocument) (h : s.lookup userId = some u)
    (hno : ∀ d ∈ u.PersonalDocument, d.Id ≠ body.Id) :
    (UpdatePersonalDocument (request s) userId (.ok body)).written
        = [⟨http.StatusNotFound,
            .H [("status", .str "Not Found"),
                ("message", .str "Personal document not found")]⟩]
      ∧ (∀ s' : Store, s'.lookup userId = none →
          (UpdatePersonalDocument (request s') userId (.ok body)).written
            ≠ (UpdatePersonalDocument (request s) userId (.ok body)).written)
      ∧ (UpdatePersonalDocument (request s) userId (.ok body)).calls
        = [.FindDocument userId]
      ∧ (∀ id document,
          DbCall.UpdateDocument id document
            ∉ (UpdatePersonalDocument (request s) userId (.ok body)).calls)
      ∧ (UpdatePersonalDocument (request s) userId (.ok body)).store = s
      ∧ (UpdatePersonalDocument (request s) userId (.ok body)).store.lookup userId
        = some u := by
  have hfind := (findPersonalDocument_eq_none u.PersonalDocument body.Id).mpr hno
  have hrun : UpdatePersonalDocument (request s) userId (.ok body)
      = { db_service := .service memDb, store := s, calls := [.FindDocument userId],
          written := [⟨http.StatusNotFound,
            .H [("status", .str "Not Found"),
                ("message", .str "Personal document not found")]⟩] } := by
    simp [UpdatePersonalDocument, getDbServiceFromContext, request, getUserById,
      callFindDocument, memDb, h, hfind, Context.JSON]
  rw [hrun]
  refine ⟨rfl, ?_, rfl, by simp, rfl, h⟩
  intro s' hs'
  rw [updatePersonalDocument_user_missing s' userId body hs']
  simp

/-- Witness of C7: Bob of the ward store has no documents at all. -/
theorem updatePersonalDocument_unknown_document_witness :
    wardStore.lookup "u2" = some ⟨"u2", "Bob", "Doctor", "0911", "bob@x.com", "ICU", []⟩
      ∧ (UpdatePersonalDocument (request wardStore) "u2"
          (.ok ⟨"d1", "contract", "v2"⟩)).written
        = [⟨404, .H [("status", .str "Not Found"),
                     ("message", .str "Personal document not found")]⟩]
      ∧ (UpdatePersonalDocument (request wardStore) "u2"
          (.ok ⟨"d1", "contract", "v2"⟩)).store = wardStore :=
  have hl : wardStore.lookup "u2"
      = some ⟨"u2", "Bob", "Doctor", "0911", "bob@x.com", "ICU", []⟩ := by
    simp [wardStore, Store.lookup]
  have h := updatePersonalDocument_unknown_document wardStore "u2" _
    ⟨"d1", "contract", "v2"⟩ hl (by simp)
  ⟨hl, h.1, h.2.2.2.2.1⟩

/-! ## Round trip -/

theorem Store.lookup_append_new (s : Store) (id : String) (u : UserDto)
    (h : s.lookup id = none) : (s ++ [(id, u)]).lookup id = some u := by
  induction s with
  | nil => simp [Store.lookup]
  | cons p s ih =>
    obtain ⟨k, v⟩ := p
    by_cases hk : k = id
    · simp [Store.lookup, hk] at h
    · simp only [Store.lookup, if_neg hk] at h
      simp only [List.cons_append, Store.lookup, if_neg hk]
      exact ih h

/-- What `GetUser` does on the in-memory store for a stored user. -/
theorem getUser_stored (s : Store) (userId : String) (u : UserDto)
    (h : s.lookup userId = some u) :
    GetUser (request s) userId
      = { db_service := .service memDb, store := s, calls := [.FindDocument userId],
          written := [⟨http.StatusOK, .user u⟩] } := by
  simp [GetUser, getDbServiceFromContext, request, callFindDocument, memDb, h, Context.JSON]

/-- C9: on the in-memory store, from every state in which no stored user has the
email of the creation input and the generated user identifier is no key, creating the
user, adding document `d1` and then document `d2` to it, and updating with the
identifier of `d1` and a new name and content makes `GetUser` answer 200 with the
user whose personal-document sequence has length 2: first the document with the
identifier of `d1` and the new name and content, then `d2` unchanged. -/
theorem roundTrip_two_documents (s : Store) (userEntry : UserEntry) (userId : String)
    (d1 : PersonalDocumentEntry) (id1 : String) (d2 : PersonalDocumentEntry) (id2 : String)
    (name content : String)
    (hemail : ∀ u ∈ s.map Prod.snd, u.Email ≠ userEntry.Email)
    (hkey : s.lookup userId = none) :
    ∃ user : UserDto,
      (roundTrip s userEntry userId d1 id1 d2 id2 name content).written
          = [⟨http.StatusOK, .user user⟩]
        ∧ user.PersonalDocument
          = [PersonalDocument.mk id1 name content, PersonalDocument.mk id2 d2.Name d2.Content]
        ∧ user.PersonalDocument.length = 2
        ∧ user
          = ⟨userId, userEntry.Name, userEntry.Role, userEntry.Phone, userEntry.Email,
              userEntry.Department,
              [⟨id1, name, content⟩, ⟨id2, d2.Name, d2.Content⟩]⟩ := by
  have hw : s.withEmail userEntry.Email = [] := by
    rw [Store.withEmail_eq_nil]
    intro hmem
    simp only [Store.emails, List.mem_map] at hmem
    obtain ⟨p, hp, he⟩ := hmem
    exact hemail p.2 (List.mem_map.mpr ⟨p, hp, rfl⟩) he
  have h0 := Store.lookup_append_new s userId (userEntry.toUserDto userId) hkey
  have hfind : findPersonalDocument
      [(⟨id1, d1.Name, d1.Content⟩ : PersonalDocument), ⟨id2, d2.Name, d2.Content⟩] id1
        = some (0, ⟨id1, d1.Name, d1.Content⟩) := by
    simp [findPersonalDocument]
  unfold roundTrip
  simp only []
  rw [createUser_unused_email s userEntry userId hw hkey]
  simp only []
  rw [addPersonalDocument_stored _ userId _ d1 id1 h0]
  simp only []
  have h1 := Store.lookup_replace_self _ userId _
    { userEntry.toUserDto userId with
      PersonalDocument := (userEntry.toUserDto userId).PersonalDocument
        ++ [⟨id1, d1.Name, d1.Content⟩] } h0
  rw [addPersonalDocument_stored _ userId _ d2 id2 h1]
  simp only []
  have h2 := Store.lookup_replace_self _ userId _
    { userEntry.toUserDto userId with
      PersonalDocument := ((userEntry.toUserDto userId).PersonalDocument
        ++ [⟨id1, d1.Name, d1.Content⟩]) ++ [⟨id2, d2.Name, d2.Content⟩] } h1
  rw [updatePersonalDocument_found _ userId _ ⟨id1, name, content⟩ 0
    ⟨id1, d1.Name, d1.Content⟩ h2 (by simpa [UserEntry.toUserDto] using hfind)]
  simp only []
  have h3 := Store.lookup_replace_self _ userId _
    { userEntry.toUserDto userId with
      PersonalDocument := (((userEntry.toUserDto userId).PersonalDocument
        ++ [PersonalDocument.mk id1 d1.Name d1.Content])
        ++ [PersonalDocument.mk id2 d2.Name d2.Content]).set 0
          (PersonalDocument.mk id1 name content) } h2
  rw [getUser_stored _ userId _ h3]
  exact ⟨_, rfl, by simp [UserEntry.toUserDto], by simp [UserEntry.toUserDto],
    by simp [UserEntry.toUserDto]⟩

/-- Witness of C9: the round trip in the store holding Alice, for a new user Bob. -/
theorem roundTrip_two_documents_witness :
    (∀ u ∈ aliceStore.map Prod.snd,
        u.Email ≠ (⟨"Bob", "Doctor", "0911", "bob@x.com", "ICU"⟩ : UserEntry).Email)
      ∧ aliceStore.lookup "u2" = none
      ∧ ∃ user : UserDto,
          (roundTrip aliceStore ⟨"Bob", "Doctor", "0911", "bob@x.com", "ICU"⟩ "u2"
              ⟨"contract", "v1"⟩ "d1" ⟨"diploma", "v1"⟩ "d2" "contract" "v2").written
            = [⟨200, .user user⟩]
          ∧ user.PersonalDocument
            = [⟨"d1", "contract", "v2"⟩, ⟨"d2", "diploma", "v1"⟩] :=
  have hemail : ∀ u ∈ aliceStore.map Prod.snd,
      u.Email ≠ (⟨"Bob", "Doctor", "0911", "bob@x.com", "ICU"⟩ : UserEntry).Email := by
    simp [aliceStore, aliceRecord]
  have hkey : aliceStore.lookup "u2" = none := by
    simp [aliceStore, Store.lookup]
  have h := roundTrip_two_documents aliceStore ⟨"Bob", "Doctor", "0911", "bob@x.com", "ICU"⟩
    "u2" ⟨"contract", "v1"⟩ "d1" ⟨"diploma", "v1"⟩ "d2" "contract" "v2" hemail hkey
  ⟨hemail, hkey, h.imp fun _ hu => ⟨hu.1, hu.2.1⟩⟩

/-! ## Email uniqueness over sequences of requests -/

theorem Store.emails_replace (s : Store) (id : String) (u document : UserDto)
    (h : s.lookup id = some u) (he : document.Email = u.Email) :
    (s.replace id document).emails = s.emails := by
  induction s with
  | nil => rfl
  | cons p s ih =>
    obtain ⟨k, v⟩ := p
    by_cases hk : k = id
    · simp only [Store.lookup, if_pos hk, Option.some.injEq] at h
      subst h
      simp [Store.replace, hk, Store.emails, he]
    · simp only [Store.lookup, if_neg hk] at h
      have := ih h
      simp only [Store.emails] at this
      simp [Store.replace, hk, Store.emails, this]

theorem Store.emails_remove_sublist (s : Store) (id : String) :
    (s.remove id).emails.Sublist s.emails := by
  induction s with
  | nil => exact List.Sublist.refl _
  | cons p s ih =>
    obtain ⟨k, v⟩ := p
    by_cases hk : k = id
    · simp only [Store.remove, if_pos hk, Store.emails, List.map_cons]
      exact List.sublist_cons_self _ _
    · simp only [Store.remove, if_neg hk, Store.emails, List.map_cons]
      exact List.Sublist.cons₂ _ ih

theorem createUser_store (s : Store) (body : Except GoError UserEntry) (newId : String) :
    (CreateUser (request s) body newId).store = s
      ∨ ∃ userEntry : UserEntry, s.withEmail userEntry.Email = []
          ∧ (CreateUser (request s) body newId).store
            = s ++ [(newId, userEntry.toUserDto newId)] := by
  cases body with
  | error err =>
    left
    simp [CreateUser, getDbServiceFromContext, request, Context.JSON]
  | ok userEntry =>
    rcases hw : s.withEmail userEntry.Email with _ | ⟨v, _ | ⟨w, l⟩⟩
    · cases hk : s.lookup newId with
      | none =>
        right
        exact ⟨userEntry, hw, by rw [createUser_unused_email s userEntry newId hw hk]⟩
      | some v =>
        left
        simp [CreateUser, getDbServiceFromContext, request, userWithEmailExists,
          callFindDocumentByEmail, memDb, hw, hk, Context.JSON, callCreateDocument]
    · left
      simp [CreateUser, getDbServiceFromContext, request, userWithEmailExists,
        callFindDocumentByEmail, memDb, hw, Context.JSON]
    · left
      simp [CreateUser, getDbServiceFromContext, request, userWithEmailExists,
        callFindDocumentByEmail, memDb, hw, Context.JSON]

theorem deleteUser_store (s : Store) (userId : String) :
    (DeleteUser (request s) userId).store = s
      ∨ (DeleteUser (request s) userId).store = s.remove userId := by
  cases h : s.lookup userId with
  | none =>
    left
    simp [DeleteUser, getDbServiceFromContext, request, callDeleteDocument, memDb, h,
      Context.JSON]
  | some u =>
    right
    simp [DeleteUser, getDbServiceFromContext, request, callDeleteDocument, memDb, h,
      Context.JSON]

theorem updateUserDepartment_store (s : Store) (userId : String)
    (body : Except GoError DepartmentDto) :
    (UpdateUserDepartment (request s) userId body).store = s
      ∨ ∃ u document, s.lookup userId = some u ∧ document.Email = u.Email
          ∧ (UpdateUserDepartment (request s) userId body).store
            = s.replace userId document := by
  cases body with
  | error err =>
    left
    simp [UpdateUserDepartment, getDbServiceFromContext, request, Context.JSON]
  | ok body =>
    rcases Option.eq_none_or_eq_some (s.lookup userId) with h | ⟨u, h⟩
    · left
      simp [UpdateUserDepartment, getDbServiceFromContext, request, getUserById,
        callFindDocument, memDb, h, Context.JSON]
    · right
      exact ⟨u, { u with Department := body.Department }, h, rfl,
        by rw [updateUserDepartment_stored s userId u body h]⟩

theorem addPersonalDocument_store (s : Store) (userId : String)
    (body : Except GoError PersonalDocumentEntry) (newId : String) :
    (AddPersonalDocument (request s) userId body newId).store = s
      ∨ ∃ u document, s.lookup userId = some u ∧ document.Email = u.Email
          ∧ (AddPersonalDocument (request s) userId body newId).store
            = s.replace userId document := by
  cases body with
  | error err =>
    left
    simp [AddPersonalDocument, request, Context.JSON]
  | ok body =>
    rcases Option.eq_none_or_eq_some (s.lookup userId) with h | ⟨u, h⟩
    · left
      simp [AddPersonalDocument, getDbServiceFromContext, request, getUserById,
        callFindDocument, memDb, h, Context.JSON]
    · right
      exact ⟨u, { u with PersonalDocument :=
          u.PersonalDocument ++ [PersonalDocument.mk newId body.Name body.Content] }, h, rfl,
        by rw [addPersonalDocument_stored s userId u body newId h]⟩

theorem updatePersonalDocument_store (s : Store) (userId : String)
    (body : Except GoError PersonalDocument) :
    (UpdatePersonalDocument (request s) userId body).store = s
      ∨ ∃ u document, s.lookup userId = some u ∧ document.Email = u.Email
          ∧ (UpdatePersonalDocument (request s) userId body).store
            = s.replace userId document := by
  cases body with
  | error err =>
    left
    simp [UpdatePersonalDocument, request, Context.JSON]
  | ok body =>
    rcases Option.eq_none_or_eq_some (s.lookup userId) with h | ⟨u, h⟩
    · left
      rw [updatePersonalDocument_user_missing s userId body h]
    · cases hfind : findPersonalDocument u.PersonalDocument body.Id with
      | none =>
        left
        simp [UpdatePersonalDocument, getDbServiceFromContext, request, getUserById,
          callFindDocument, memDb, h, hfind, Context.JSON]
      | some p =>
        right
        exact ⟨u, { u with PersonalDocument :=
            u.PersonalDocument.set p.1 (PersonalDocument.mk p.2.Id body.Name body.Content) },
          h, rfl, by rw [updatePersonalDocument_found s userId u body p.1 p.2 h hfind]⟩

/-- Every request for a state-changing operation, served by the in-memory store,
keeps the emails of the stored records pairwise distinct. -/
theorem serve_emailsUnique (s : Store) (r : Request) (hu : EmailsUnique s) :
    EmailsUnique (serve s r) := by
  have hrep : ∀ t : Store, (t = s ∨ ∃ u document, s.lookup r.userKey = some u
      ∧ document.Email = u.Email ∧ t = s.replace r.userKey document) → EmailsUnique t := by
    intro t ht
    rcases ht with rfl | ⟨u, document, hl, he, rfl⟩
    · exact hu
    · unfold EmailsUnique
      rw [Store.emails_replace s _ u document hl he]
      exact hu
  cases r with
  | CreateUser body newId =>
    rcases createUser_store s body newId with h | ⟨userEntry, hw, h⟩
    · simp only [serve, h]; exact hu
    · simp only [serve, h]
      unfold EmailsUnique at hu ⊢
      rw [Store.withEmail_eq_nil] at hw
      have : Store.emails (s ++ [(newId, userEntry.toUserDto newId)])
          = s.emails ++ [userEntry.Email] := by
        simp [Store.emails, UserEntry.toUserDto]
      rw [this]
      exact List.Nodup.append hu (List.nodup_singleton _) (by simpa using hw)
  | DeleteUser userId =>
    rcases deleteUser_store s userId with h | h
    · simp only [serve, h]; exact hu
    · simp only [serve, h]
      exact List.Nodup.sublist (Store.emails_remove_sublist s userId) hu
  | UpdateUserDepartment userId body =>
    exact hrep _ (updateUserDepartment_store s userId body)
  | AddPersonalDocument userId body newId =>
    exact hrep _ (addPersonalDocument_store s userId body newId)
  | UpdatePersonalDocument userId body =>
    exact hrep _ (updatePersonalDocument_store s userId body)

/-- C3: starting from the empty in-memory store and serving any sequence of requests
for `CreateUser`, `DeleteUser`, `UpdateUserDepartment`, `AddPersonalDocument` and
`UpdatePersonalDocument` one after another (with any inputs: any identifiers, any
generated identifiers, bodies that bind or fail to bind), no two stored user records
have the same email. -/
theorem serveAll_emailsUnique (requests : List Request) :
    EmailsUnique (serveAll requests) := by
  have hgen : ∀ (rs : List Request) (s : Store), EmailsUnique s →
      EmailsUnique (rs.foldl serve s) := by
    intro rs
    induction rs with
    | nil => intro s hs; exact hs
    | cons r rs ih => intro s hs; exact ih _ (serve_emailsUnique s r hs)
  exact hgen requests [] (by simp [EmailsUnique, Store.emails])

/-! ## Store errors -/

/-- Whatever error `db.FindDocumentByEmail` returns, `LoginUser` answers 404
`User not found`. -/
theorem loginUser_any_error (ctx : Context σ) (db : DbService σ) (body : LoginEntry)
    (err : GoError) (hdb : ctx.db_service = .service db)
    (herr : (db.FindDocumentByEmail ctx.store body.Email).1 = .error err) :
    (LoginUser ctx (.ok body)).written
      = ctx.written ++ [⟨http.StatusNotFound, .H [("error", .str "User not found")]⟩] := by
  simp [LoginUser, getDbServiceFromContext, hdb, callFindDocumentByEmail, herr, Context.JSON]

/-- Whatever error `db.FindDocument` returns, `getUserById` answers 404
`User not found`. -/
theorem getUserById_any_error (ctx : Context σ) (db : DbService σ) (id : String)
    (err : GoError) (herr : (db.FindDocument ctx.store id).1 = .error err) :
    (getUserById ctx db id).1.written
      = ctx.written ++ [⟨http.StatusNotFound, .H [("error", .str "User not found")]⟩]
      ∧ (getUserById ctx db id).2 = .error err := by
  simp [getUserById, callFindDocument, herr, Context.JSON]

/-- C8, the code at the failing input: the store fails every call with the storage
fault `connection reset`, which is neither `ErrNotFound` nor `ErrConflict`.
`LoginUser`, `UpdateUserDepartment`, `AddPersonalDocument` and
`UpdatePersonalDocument` each answer 404 `User not found`, the answer they give for
`ErrNotFound`, while `GetUser` and `DeleteUser` answer the same fault with 500. -/
theorem storage_fault_answered_not_found :
    (LoginUser faultyRequest (.ok ⟨"a@x.com"⟩)).written
        = [⟨404, .H [("error", .str "User not found")]⟩]
      ∧ (UpdateUserDepartment faultyRequest "u1" (.ok ⟨"ICU"⟩)).written
        = [⟨404, .H [("error", .str "User not found")]⟩]
      ∧ (AddPersonalDocument faultyRequest "u1" (.ok ⟨"visa", "v1"⟩) "d3").written
        = [⟨404, .H [("error", .str "User not found")]⟩]
      ∧ (UpdatePersonalDocument faultyRequest "u1" (.ok ⟨"d1", "contract", "v2"⟩)).written
        = [⟨404, .H [("error", .str "User not found")]⟩]
      ∧ (GetUser faultyRequest "u1").written
        = [⟨500, .H [("status", .str "Internal Server Error"),
                     ("message", .str "Failed to get user from database"),
                     ("error", .errorOf (.other "connection reset"))]⟩]
      ∧ (DeleteUser faultyRequest "u1").written
        = [⟨500, .H [("status", .str "Internal Server Error"),
                     ("message", .str "Failed to delete user from database"),
                     ("error", .errorOf (.other "connection reset"))]⟩] := by
  refine ⟨?_, ?_, ?_, ?_, ?_, ?_⟩ <;> rfl

/-! ## Missing store handle -/

/-- C10, counterexample: no `db_service` is set and the body of an
`AddPersonalDocument` request does not bind.  The handler binds the body before it
looks for the handle, so its one response is 400 Bad Request, not a 500. -/
theorem addPersonalDocument_malformed_body_without_handle :
    (AddPersonalDocument requestWithoutHandle "u1" (.error (.other "unexpected EOF"))
        "d3").written
        = [⟨400, .H [("status", .str "Bad Request"),
                     ("message", .str "Invalid request body"),
                     ("error", .errorOf (.other "unexpected EOF"))]⟩]
      ∧ ¬ ∃ obj, (AddPersonalDocument requestWithoutHandle "u1"
            (.error (.other "unexpected EOF")) "d3").written
          = [⟨http.StatusInternalServerError, obj⟩] := by
  refine ⟨rfl, ?_⟩
  rintro ⟨obj, h⟩
  simp [AddPersonalDocument, requestWithoutHandle, Context.JSON, http.StatusBadRequest,
    http.StatusInternalServerError] at h

/-- Without a store handle `GetUsers` calls `ctx.JSON` twice: the 500 of
`getDbServiceFromContext` and then its own 500. -/
theorem getUsers_without_handle_writes_twice :
    (GetUsers requestWithoutHandle).written
      = [⟨500, .H [("status", .str "Internal Server Error"),
                   ("message", .str "db not found"),
                   ("error", .str "db not found")]⟩,
         ⟨500, .H [("status", .str "Internal Server Error"),
                   ("message", .str "Failed to get users from database"),
                   ("error", .errorOf (.other "failed to get db service from context"))]⟩] := by
  rfl

/-- C10, amended: if the context holds no store handle or a value of the wrong type,
then for one 500 response `obj` (the `db not found` or the wrong-type message):
`CreateUser`, `DeleteUser`, `GetUser` and `UpdateUserDepartment`, for every body,
well-formed or malformed, and `AddPersonalDocument`, `LoginUser` and
`UpdatePersonalDocument`, for every well-formed body, return the context with exactly
that one response added, so they make no store call and leave the store alone;
`AddPersonalDocument`, `LoginUser` and `UpdatePersonalDocument` with a malformed body
add exactly one response, the 400 Bad Request, and make no store call; `GetUsers`
makes no store call, leaves the store alone, writes that 500 response first and
writes only 500 responses. -/
theorem no_handle_short_circuits (ctx : Context σ)
    (h : ctx.db_service = .absent ∨ ctx.db_service = .wrongType) :
    ∃ obj : Body,
      (∀ body newId, CreateUser ctx body newId
          = ctx.JSON http.StatusInternalServerError obj)
        ∧ (∀ userId, DeleteUser ctx userId = ctx.JSON http.StatusInternalServerError obj)
        ∧ (∀ userId, GetUser ctx userId = ctx.JSON http.StatusInternalServerError obj)
        ∧ (∀ userId body, UpdateUserDepartment ctx userId body
            = ctx.JSON http.StatusInternalServerError obj)
        ∧ (∀ userId body newId, AddPersonalDocument ctx userId (.ok body) newId
            = ctx.JSON http.StatusInternalServerError obj)
        ∧ (∀ body, LoginUser ctx (.ok body) = ctx.JSON http.StatusInternalServerError obj)
        ∧ (∀ userId body, UpdatePersonalDocument ctx userId (.ok body)
            = ctx.JSON http.StatusInternalServerError obj)
        ∧ (∀ userId err newId, AddPersonalDocument ctx userId (.error err) newId
            = ctx.JSON http.StatusBadRequest (invalidRequestBody err))
        ∧ (∀ err, LoginUser ctx (.error err)
            = ctx.JSON http.StatusBadRequest (invalidRequestBody err))
        ∧ (∀ userId err, UpdatePersonalDocument ctx userId (.error err)
            = ctx.JSON http.StatusBadRequest (invalidRequestBody err))
        ∧ (GetUsers ctx).calls = ctx.calls
        ∧ (GetUsers ctx).store = ctx.store
        ∧ ∃ more : List Response,
            (GetUsers ctx).written
              = ctx.written ++ ⟨http.StatusInternalServerError, obj⟩ :: more
            ∧ ∀ r ∈ more, r.code = http.StatusInternalServerError := by
  rcases h with h | h
  · refine ⟨.H [("status", .str "Internal Server Error"),
                ("message", .str "db not found"),
                ("error", .str "db not found")], ?_⟩
    simp [CreateUser, DeleteUser, GetUser, UpdateUserDepartment, AddPersonalDocument,
      LoginUser, UpdatePersonalDocument, GetUsers, getUserList, getDbServiceFromContext, h,
      Context.JSON]
  · refine ⟨.H [("status", .str "Internal Server Error"),
                ("message", .str "db context is not of required type"),
                ("error", .str "cannot cast db context to db_service.DbService")], ?_⟩
    simp [CreateUser, DeleteUser, GetUser, UpdateUserDepartment, AddPersonalDocument,
      LoginUser, UpdatePersonalDocument, GetUsers, getUserList, getDbServiceFromContext, h,
      Context.JSON]

/-- Witness of C10 (amended): a request whose context has no `db_service`. -/
theorem no_handle_short_circuits_witness :
    (requestWithoutHandle.db_service = .absent ∨ requestWithoutHandle.db_service = .wrongType)
      ∧ ∃ obj : Body,
          (∀ body newId, CreateUser requestWithoutHandle body newId
              = requestWithoutHandle.JSON 500 obj)
            ∧ (∀ userId body, UpdatePersonalDocument requestWithoutHandle userId (.ok body)
              = requestWithoutHandle.JSON 500 obj) :=
  have h : requestWithoutHandle.db_service = .absent
      ∨ requestWithoutHandle.db_service = .wrongType := Or.inl rfl
  ⟨h, (no_handle_short_circuits requestWithoutHandle h).imp
    fun _ ho => ⟨ho.1, ho.2.2.2.2.2.2.1⟩⟩

end AmbulanceHr
